import Mathlib

/-!
Shallow embedding of `src/send_grafana_iot_humidity.py` — a collection-and-forward
utility that polls ESP32 humidity sensors and ships one OpenTelemetry gauge payload.

Modelling conventions:
* Python floats are modelled as `ℚ`; every numeric operation the program performs on
  them (`float()` of a decimal-digit capture group, of a JSON number, of a bool) is
  exact, so no rounding behaviour is lost.
* Python `dict`s used as attribute maps are insertion-ordered association lists.
* Fallible code (code paths that can raise an uncaught exception) is embedded in
  `Except String`; the `String` is a stand-in for the Python exception message.
* HTTP traffic is factored out: each function takes the decoded response(s) it would
  observe as an explicit argument (a transport failure, which the source catches as
  `requests.exceptions.RequestException`, is an explicit constructor / `Except.error`
  input, never a Lean-level exception).
-/

set_option maxRecDepth 4096

namespace EspIot

/-- A Python scalar as it can appear in an attribute mapping or a JSON field.
`pynone` is Python's `None` (also the result of `dict.get` on a missing key). -/
inductive PyScalar where
  | str (s : String)
  | int (n : Int)
  | float (q : ℚ)
  | bool (b : Bool)
  | pynone
  deriving DecidableEq, Repr

/-- `isinstance(val, str)`. -/
def isinstance_str : PyScalar → Bool
  | .str _ => true
  | _ => false

/-- `isinstance(val, (int, float))`.  In Python `bool` is a subclass of `int`,
so `isinstance(True, (int, float))` is `True`: the `bool` case is included. -/
def isinstance_int_float : PyScalar → Bool
  | .int _ => true
  | .float _ => true
  | .bool _ => true
  | _ => false

/-- `isinstance(val, bool)`. -/
def isinstance_bool : PyScalar → Bool
  | .bool _ => true
  | _ => false

/-- Numeric reading of a scalar already known to satisfy `isinstance_int_float`
(Python `float(val)` on an `int`, `float` or `bool`: `float(True) == 1.0`). -/
def pyToRat : PyScalar → ℚ
  | .int n => (n : ℚ)
  | .float q => q
  | .bool b => if b then 1 else 0
  | _ => 0

def asStr : PyScalar → String
  | .str s => s
  | _ => ""

def asBool : PyScalar → Bool
  | .bool b => b
  | _ => false

/-- Value of a nonempty decimal-digit string, `digitsToNat "042".toList = 42`.
Python `float()` on a `\d+` regex capture is this exact integer conversion. -/
def digitsToNat (cs : List Char) : Nat :=
  cs.foldl (fun n c => 10 * n + (c.toNat - '0'.toNat)) 0

/-- Python `float(val)` as the program can reach it: exact on numbers and bools,
`TypeError` on `None` (the value `dict.get` yields for a missing key).  The
program applies it to strings only for `\d+` captures, embedded exactly. -/
def pyFloat : PyScalar → Except String ℚ
  | .int n => .ok (n : ℚ)
  | .float q => .ok q
  | .bool b => .ok (if b then 1 else 0)
  | .str s =>
    if s.toList ≠ [] ∧ s.toList.all Char.isDigit then .ok (digitsToNat s.toList : ℚ)
    else .error "ValueError: could not convert string to float"
  | .pynone => .error "TypeError: float() argument must not be None"

/-- An insertion-ordered Python `dict` with string keys, as used for attributes. -/
abbrev AttrMap : Type := List (String × PyScalar)

/-- Python `d[k]`-style lookup (first binding wins; dict keys are unique anyway). -/
def lookupAttr (m : AttrMap) (k : String) : Option PyScalar :=
  (m.find? (fun p => p.1 = k)).map (fun p => p.2)

/-- The merge `{**m, k: v}`: keys keep `m`'s order; if `k` already occurs its value
is replaced in place, otherwise the binding is appended at the end. -/
def dictInsert (m : AttrMap) (k : String) (v : PyScalar) : AttrMap :=
  if m.any (fun p => p.1 = k) then m.map (fun p => if p.1 = k then (k, v) else p)
  else m ++ [(k, v)]

/-- The normalized measurement shape `{"value": float, "attributes": dict}`
produced by both fetchers. -/
structure Measurement where
  value : ℚ
  attributes : AttrMap
  deriving DecidableEq

/-! ### Legacy HTML fetcher (`fetch_from_legacy_html_device`)

The regex `r"Humidity A: (\d+)% Humidity B: (\d+)%"` is embedded as a scanning
matcher over `List Char`.  `re.search` returns the leftmost match; inside the
pattern each greedy `(\d+)` is followed by the non-digit `%`, so a maximal digit
run followed by a literal check is equivalent (backtracking to a shorter capture
would put a digit where `%` must be, so it never helps). -/

/-- Literal pattern text before the first capture group. -/
def litA : List Char := "Humidity A: ".toList

/-- Literal pattern text between the two capture groups. -/
def litB : List Char := "% Humidity B: ".toList

/-- Match the literal `p` at the head of `s`, returning the remainder. -/
def matchLit : List Char → List Char → Option (List Char)
  | [], s => some s
  | _ :: _, [] => none
  | p :: ps, c :: cs => if c = p then matchLit ps cs else none

/-- Split off the maximal leading run of decimal digits. -/
def takeDigits : List Char → List Char × List Char
  | [] => ([], [])
  | c :: cs =>
    if c.isDigit then
      let r := takeDigits cs
      (c :: r.1, r.2)
    else ([], c :: cs)

/-- `true` when the list does not start with a decimal digit: the maximal digit
run taken before it cannot be extended. -/
def headNotDigit : List Char → Bool
  | [] => true
  | c :: _ => !c.isDigit

/-- Try to match the whole pattern anchored at the start of `s`, returning the
two capture groups. -/
def matchAt (s : List Char) : Option (List Char × List Char) :=
  match matchLit litA s with
  | none => none
  | some s1 =>
    let a := (takeDigits s1).1
    if a = [] then none
    else
      match matchLit litB (takeDigits s1).2 with
      | none => none
      | some s3 =>
        let b := (takeDigits s3).1
        if b = [] then none
        else
          match (takeDigits s3).2 with
          | c :: _ => if c = '%' then some (a, b) else none
          | [] => none

/-- `re.search`: try the pattern at each position, leftmost match wins. -/
def reSearch : List Char → Option (List Char × List Char)
  | [] => none
  | c :: t =>
    match matchAt (c :: t) with
    | some g => some g
    | none => reSearch t

/-- `fetch_from_legacy_html_device`, given the device's `common_attributes` and the
decoded body of a successful `GET {url}/watering_pumps` response.  On a transport
failure the source returns the still-empty `measurements` list, which coincides
with the no-match branch.  The dict `{'Sensor A': v1, 'Sensor B': v2}` is iterated
in insertion order, so Sensor A's measurement precedes Sensor B's. -/
def fetch_from_legacy_html_device (common : AttrMap) (body : List Char) :
    List Measurement :=
  match reSearch body with
  | none => []
  | some (a, b) =>
    [ { value := (digitsToNat a : ℚ),
        attributes := dictInsert common "sensor_id" (.str "Sensor A") },
      { value := (digitsToNat b : ℚ),
        attributes := dictInsert common "sensor_id" (.str "Sensor B") } ]

/-! ### Smooth-API fetcher (`fetch_from_smooth_api_device`) -/

/-- The two fields `fetch_from_smooth_api_device` reads off a returned
`last_smooth_humi_result` dict, each as `dict.get` yields it (`pynone` when the
key is missing). -/
structure SmoothResult where
  sensor_label : PyScalar
  average_humidity_percent : PyScalar
  deriving DecidableEq

/-- Python `val == label` for a string `label`: only an equal `str` compares
equal (`None == s`, `5 == s`, `True == s` are all `False`). -/
def pyEqStr : PyScalar → String → Bool
  | .str s, l => s = l
  | _, _ => false

/-- The per-sensor loop of `fetch_from_smooth_api_device`.  `read` is the
observable outcome of `reader.request_smooth_reading(label)`: `none` models both
a `None` return (non-202 trigger status or transport failure) and a falsy result
dict, which the `if result and ...` guard also skips (a falsy `{}` has no
`sensor_label` to match either way).  A result echoing the requested label but
carrying no numeric `average_humidity_percent` makes `float(value)` raise, which
nothing in the source catches — hence `Except`. -/
def smoothLoop (common : AttrMap) (read : String → Option SmoothResult) :
    List String → Except String (List Measurement)
  | [] => .ok []
  | label :: rest =>
    match read label with
    | none => smoothLoop common read rest
    | some r =>
      if pyEqStr r.sensor_label label then
        match pyFloat r.average_humidity_percent with
        | .error e => .error e
        | .ok v =>
          match smoothLoop common read rest with
          | .error e => .error e
          | .ok ms =>
            .ok ({ value := v,
                   attributes := dictInsert common "sensor_id" (.str label) } :: ms)
      else smoothLoop common read rest

/-- `fetch_from_smooth_api_device`, given the discovered sensor labels (the result
of `reader.get_available_sensors()`) and the read outcome per label.  An empty
discovery returns early with no measurements. -/
def fetch_from_smooth_api_device (common : AttrMap)
    (labels : List String) (read : String → Option SmoothResult) :
    Except String (List Measurement) :=
  if labels.isEmpty then .ok []
  else smoothLoop common read labels

/-! ### Device client: sensor discovery (`ESPSensorReader.get_available_sensors`) -/

/-- A decoded JSON value, for the body of `GET {base}/api`. -/
inductive JVal where
  | jstr (s : String)
  | jnum (q : ℚ)
  | jbool (b : Bool)
  | jnull
  | jarr (xs : List JVal)
  | jobj (kvs : List (String × JVal))

/-- Python truthiness of a JSON-decoded value (`if data`). -/
def jTruthy : JVal → Bool
  | .jstr s => s ≠ ""
  | .jnum q => q ≠ 0
  | .jbool b => b
  | .jnull => false
  | .jarr xs => ¬ xs.isEmpty
  | .jobj kvs => ¬ kvs.isEmpty

/-- Python `x == k` for a string `k` against a JSON value. -/
def jvalEqStr : JVal → String → Bool
  | .jstr s, k => s = k
  | _, _ => false

/-- Substring test on character lists (Python `k in s` for strings). -/
def strContains (s k : List Char) : Bool :=
  match s with
  | [] => (matchLit k []).isSome
  | _ :: t => (matchLit k s).isSome || strContains t k

/-- Python `"k" in data`: key membership for a dict, element equality for a list,
substring test for a string, `TypeError` otherwise. -/
def pyContains (data : JVal) (k : String) : Except String Bool :=
  match data with
  | .jobj kvs => .ok (kvs.any (fun p => p.1 = k))
  | .jarr xs => .ok (xs.any (fun x => jvalEqStr x k))
  | .jstr s => .ok (strContains s.toList k.toList)
  | _ => .error "TypeError: argument of type is not iterable"

/-- Python `data[k]` for a string key: dict lookup (`KeyError` when absent),
`TypeError` on any non-dict. -/
def pySubscript (data : JVal) (k : String) : Except String JVal :=
  match data with
  | .jobj kvs =>
    match kvs.find? (fun p => p.1 = k) with
    | some p => .ok p.2
    | none => .error "KeyError: label missing"
  | _ => .error "TypeError: value is not subscriptable with a string"

/-- Python iteration `for sensor in es`: lists yield elements, strings yield
characters, dicts yield keys, anything else raises `TypeError`. -/
def pyIter (data : JVal) : Except String (List JVal) :=
  match data with
  | .jarr xs => .ok xs
  | .jstr s => .ok (s.toList.map (fun c => .jstr (String.mk [c])))
  | .jobj kvs => .ok (kvs.map (fun p => .jstr p.1))
  | _ => .error "TypeError: value is not iterable"

/-- `ESPSensorReader.get_available_sensors`.  The argument is the observable
outcome of `GET {base}/api`: `.error ()` is any `requests.exceptions.RequestException`
(connection failure, bad status via `raise_for_status`, undecodable JSON — in
current `requests`, `Response.json()` raises a `JSONDecodeError` that subclasses
`RequestException`), which the `except` clause turns into `[]`.  `.ok data` is the
decoded body; the comprehension `[sensor['label'] for sensor in data['enabled_sensors']]`
then runs inside the `try` block, but `KeyError`/`TypeError` are not
`RequestException`s, so they escape. -/
def get_available_sensors (resp : Except Unit JVal) : Except String (List JVal) :=
  match resp with
  | .error _ => .ok []
  | .ok data =>
    if jTruthy data then
      match pyContains data "enabled_sensors" with
      | .error e => .error e
      | .ok true =>
        match pySubscript data "enabled_sensors" with
        | .error e => .error e
        | .ok es =>
          match pyIter es with
          | .error e => .error e
          | .ok xs => xs.mapM (fun sensor => pySubscript sensor "label")
      | .ok false => .ok []
    else .ok []

/-! ### Device client: trigger/poll protocol (`ESPSensorReader.request_smooth_reading`) -/

/-- The two fields of the `GET {base}/api` status body that the poll loop reads:
`status.get('smooth_humi_task_running', False)` and
`status.get('last_smooth_humi_result')`. -/
structure ApiStatus where
  smooth_humi_task_running : Bool
  last_smooth_humi_result : Option SmoothResult
  deriving DecidableEq

/-- Observable outcome of one `request_smooth_reading` call.  The source's
`while True: sleep; poll` loop has no bound, so a run is only observable up to a
finite number of polls (the fuel); `neverReturns` records that the loop was still
going when the fuel ran out. -/
inductive CallOutcome where
  | neverReturns
  | returns (r : Option SmoothResult)
  deriving DecidableEq

/-- The poll loop: iteration `i` observes `statuses i` (the JSON body of the
`i`-th `GET {base}/api` after acceptance); if the running flag is set it sleeps
and polls again, otherwise it returns that status's last-result field. -/
def pollLoop (statuses : Nat → ApiStatus) : Nat → Nat → CallOutcome
  | _, 0 => .neverReturns
  | i, fuel + 1 =>
    if (statuses i).smooth_humi_task_running then pollLoop statuses (i + 1) fuel
    else .returns (statuses i).last_smooth_humi_result

/-- `ESPSensorReader.request_smooth_reading` after the trigger POST: a status code
other than 202 returns `None` immediately; 202 enters the unbounded poll loop. -/
def request_smooth_reading (acceptCode : Nat) (statuses : Nat → ApiStatus)
    (fuel : Nat) : CallOutcome :=
  if acceptCode ≠ 202 then .returns none
  else pollLoop statuses 0 fuel

/-! ### OpenTelemetry formatter (`_format_for_otel`) -/

/-- The closed set of typed OTel attribute values the formatter can emit. -/
inductive OtelValue where
  | stringValue (s : String)
  | doubleValue (q : ℚ)
  | boolValue (b : Bool)
  deriving DecidableEq, Repr

/-- The per-attribute type dispatch of `_format_for_otel`, in source order:
`isinstance(val, str)`, then `isinstance(val, (int, float))`, then
`isinstance(val, bool)`, else the attribute is dropped.  Because Python's `bool`
subclasses `int`, a `bool` is captured by the second test. -/
def formatAttr (key : String) (val : PyScalar) : Option (String × OtelValue) :=
  if isinstance_str val then some (key, .stringValue (asStr val))
  else if isinstance_int_float val then some (key, .doubleValue (pyToRat val))
  else if isinstance_bool val then some (key, .boolValue (asBool val))
  else none

/-- The `otel_attributes` list built for one measurement. -/
def otelAttributes (attrs : AttrMap) : List (String × OtelValue) :=
  attrs.filterMap (fun kv => formatAttr kv.1 kv.2)

/-- One entry of `gauge.dataPoints`. -/
structure DataPoint where
  startTimeUnixNano : Nat
  timeUnixNano : Nat
  asDouble : ℚ
  attributes : List (String × OtelValue)
  deriving DecidableEq

structure OtelScope where
  name : String
  version : String
  deriving DecidableEq

structure OtelMetric where
  name : String
  description : String
  unit : String
  dataPoints : List DataPoint
  deriving DecidableEq

structure ScopeMetrics where
  scope : OtelScope
  metrics : List OtelMetric
  deriving DecidableEq

structure ResourceMetrics where
  resource : List (String × OtelValue)
  scopeMetrics : List ScopeMetrics
  deriving DecidableEq

structure MetricsEnvelope where
  resourceMetrics : List ResourceMetrics
  deriving DecidableEq

/-- The data point built for one measurement: both timestamps are the single
batch capture time, the value is the measurement's float value. -/
def dataPointOf (ts : Nat) (m : Measurement) : DataPoint :=
  { startTimeUnixNano := ts
    timeUnixNano := ts
    asDouble := m.value
    attributes := otelAttributes m.attributes }

/-- `_format_for_otel`: `time.time()` is impure, so the captured nanosecond
timestamp is an explicit argument. Returns `none` (`None`) when there are no
data points, i.e. exactly when the measurement list is empty. -/
def format_for_otel (metric_name : String) (unit : String) (ts : Nat)
    (all_measurements : List Measurement) : Option MetricsEnvelope :=
  let pts := all_measurements.map (dataPointOf ts)
  if pts.isEmpty then none
  else
    some
      { resourceMetrics :=
          [ { resource := [("service.name", .stringValue "multi-device-plant-monitor")]
              scopeMetrics :=
                [ { scope := { name := "iot-soil-monitoring", version := "1.1.0" }
                    metrics :=
                      [ { name := metric_name
                          description := "Soil moisture measurements from multiple IoT devices"
                          unit := unit
                          dataPoints := pts } ] } ] } ] }

/-! ### Orchestrator (`collect_and_send_metrics`) -/

/-- What one collection cycle does at the end: skip sending because nothing was
collected, give up because the formatter produced no message, or POST the
envelope to the collector. -/
inductive SendOutcome where
  | nothingToSend
  | formatFailed
  | post (env : MetricsEnvelope)

/-- `collect_and_send_metrics`, given the per-device fetcher results in
configuration order and the batch timestamp.  The per-device fetch dispatch and
transport are outside the embedding; what is kept is the concatenation, the
empty-collection early return (no HTTP POST), and the formatter call. -/
def collect_and_send_metrics (fetched : List (List Measurement)) (ts : Nat) :
    SendOutcome :=
  let all_measurements := fetched.flatten
  if all_measurements.isEmpty then .nothingToSend
  else
    match format_for_otel "soil_moisture_percentage" "%" ts all_measurements with
    | none => .formatFailed
    | some env => .post env

/-! ### Specification-side definitions -/

/-- Modelled from the spec (§4.3 Smooth-API Fetcher): "For each sensor label, in
discovery order: calls `requestSmoothReading`; if the result is present and its
echoed `sensorLabel` matches the requested label, emits one Measurement using
`averageHumidityPercent` as the value.  A mismatched or absent result for a
given sensor is skipped."  Reference point for the refinement claim about
`fetch_from_smooth_api_device`. -/
def smoothFetchSpec (common : AttrMap) (read : String → Option SmoothResult)
    (labels : List String) : List Measurement :=
  labels.filterMap (fun label =>
    match read label with
    | none => none
    | some r =>
      if pyEqStr r.sensor_label label then
        match pyFloat r.average_humidity_percent with
        | .ok v =>
          some { value := v, attributes := dictInsert common "sensor_id" (.str label) }
        | .error _ => none
      else none)

/-- Modelled from the spec (§3/§4.4): the repository has no parser for the
outbound envelope, so reading it back follows the spec's description of the
nesting — resources, their scopes, their metrics, their gauge data points, each
data point contributing its value and attribute sequence. -/
def parseEnvelope (env : MetricsEnvelope) : List (ℚ × List (String × OtelValue)) :=
  (((env.resourceMetrics.flatMap (fun rm => rm.scopeMetrics)).flatMap
      (fun sm => sm.metrics)).flatMap (fun m => m.dataPoints)).map
    (fun dp => (dp.asDouble, dp.attributes))

/-- An attribute value of one of the three shapes the formatter supports
(the spec's invariant: string, numeric, or boolean scalars). -/
def scalarOk (v : PyScalar) : Bool :=
  isinstance_str v || isinstance_int_float v || isinstance_bool v

/-- Python `==` between an original attribute value and the typed OTel value the
formatter emitted for it: strings compare as strings, and any numeric original
(ints, floats, and bools — `True == 1.0` in Python) compares equal to a double
carrying its numeric value. -/
def pyValEqOtel (orig : PyScalar) (parsed : OtelValue) : Prop :=
  match orig, parsed with
  | .str s, .stringValue t => s = t
  | .int n, .doubleValue q => (n : ℚ) = q
  | .float x, .doubleValue q => x = q
  | .bool b, .doubleValue q => (if b then (1 : ℚ) else 0) = q
  | _, _ => False

/-- A body contains a substring matched by
`r"Humidity A: (\d+)% Humidity B: (\d+)%"`: at some position the literal text,
a nonempty digit run, the middle literal, a second nonempty digit run and the
closing percent sign occur consecutively. -/
def ContainsHumidityPattern (s : List Char) : Prop :=
  ∃ p a b rest,
    s = p ++ (litA ++ (a ++ (litB ++ (b ++ '%' :: rest)))) ∧
    a ≠ [] ∧ b ≠ [] ∧ a.all Char.isDigit = true ∧ b.all Char.isDigit = true

/-! ### Concrete fixtures used by witnesses and counterexamples -/

/-- A smooth-API device whose single sensor `hum0` echoes the requested label
but whose completed result has no `average_humidity_percent` key. -/
def c2read : String → Option SmoothResult := fun l =>
  if l = "hum0" then some { sensor_label := .str "hum0", average_humidity_percent := .pynone }
  else none

/-- A smooth-API device with four discovered sensors: two well-behaved, one
echoing a wrong label, one whose read never yields a result. -/
def c5read : String → Option SmoothResult := fun l =>
  if l = "top" then some { sensor_label := .str "top", average_humidity_percent := .float 55 }
  else if l = "bottom" then some { sensor_label := .str "bottom", average_humidity_percent := .int 40 }
  else if l = "mis" then some { sensor_label := .str "other", average_humidity_percent := .int 1 }
  else none

/-- One-measurement batch from the spec's formatter example. -/
def ms0 : List Measurement :=
  [ { value := (111 : ℚ) / 2,
      attributes := [("device_id", .str "d1"), ("sensor_id", .str "s1")] } ]

/-- The envelope the formatter produces for `ms0` at timestamp 5. -/
def env0 : MetricsEnvelope :=
  (format_for_otel "soil_moisture_percentage" "%" 5 ms0).getD { resourceMetrics := [] }

/-- A device that reports the averaging task still running on the first two
polls and finished, with a result, on the third. -/
def c8statuses : Nat → ApiStatus := fun n =>
  if n < 2 then { smooth_humi_task_running := true, last_smooth_humi_result := none }
  else
    { smooth_humi_task_running := false,
      last_smooth_humi_result :=
        some { sensor_label := .str "s", average_humidity_percent := .float 50 } }

/-!
## Helper lemmas

### The regex scanner
Soundness and completeness of `reSearch` for the pattern
`Humidity A: (\d+)% Humidity B: (\d+)%`.
-/

theorem matchLit_self_append (p r : List Char) : matchLit p (p ++ r) = some r := by
  induction p with
  | nil => rfl
  | cons c cs ih => simp [matchLit, ih]

theorem matchLit_eq_append {p s r : List Char} (h : matchLit p s = some r) :
    s = p ++ r := by
  induction p generalizing s with
  | nil =>
    simp only [matchLit, Option.some.injEq] at h
    simpa using h
  | cons c cs ih =>
    cases s with
    | nil => simp [matchLit] at h
    | cons d ds =>
      by_cases hd : d = c
      · subst hd
        simp only [matchLit, if_pos rfl] at h
        simp [ih h]
      · simp [matchLit, hd] at h

theorem takeDigits_sound (s : List Char) :
    s = (takeDigits s).1 ++ (takeDigits s).2 ∧
      (takeDigits s).1.all Char.isDigit = true := by
  induction s with
  | nil => simp [takeDigits]
  | cons c cs ih =>
    by_cases hc : c.isDigit
    · simpa [takeDigits, hc, List.all_cons] using ih
    · simp [takeDigits, hc]

theorem takeDigits_append {d r : List Char} (hd : d.all Char.isDigit = true)
    (hr : headNotDigit r = true) : takeDigits (d ++ r) = (d, r) := by
  induction d with
  | nil =>
    cases r with
    | nil => rfl
    | cons c cs =>
      simp only [headNotDigit, Bool.not_eq_true'] at hr
      simp [takeDigits, hr]
  | cons c cs ih =>
    simp only [List.all_cons, Bool.and_eq_true] at hd
    simp [takeDigits, hd.1, ih hd.2]

theorem headNotDigit_litB_append (x : List Char) : headNotDigit (litB ++ x) = true := by
  have h : litB = '%' :: " Humidity B: ".toList := by decide
  rw [h]
  rfl

theorem matchAt_complete {a b : List Char} (rest : List Char) (ha : a ≠ [])
    (hb : b ≠ []) (hda : a.all Char.isDigit = true) (hdb : b.all Char.isDigit = true) :
    matchAt (litA ++ (a ++ (litB ++ (b ++ '%' :: rest)))) = some (a, b) := by
  have h4 : headNotDigit ('%' :: rest) = true := rfl
  simp only [matchAt, matchLit_self_append,
    takeDigits_append hda (headNotDigit_litB_append _), if_neg ha,
    takeDigits_append hdb h4, if_neg hb]
  simp

theorem matchAt_sound {s a b : List Char} (h : matchAt s = some (a, b)) :
    ∃ rest, s = litA ++ (a ++ (litB ++ (b ++ '%' :: rest))) ∧
      a ≠ [] ∧ b ≠ [] ∧ a.all Char.isDigit = true ∧ b.all Char.isDigit = true := by
  unfold matchAt at h
  cases h1 : matchLit litA s with
  | none => rw [h1] at h; cases h
  | some s1 =>
    rw [h1] at h
    simp only at h
    by_cases ha1 : (takeDigits s1).1 = []
    · rw [if_pos ha1] at h; cases h
    · rw [if_neg ha1] at h
      cases h3 : matchLit litB (takeDigits s1).2 with
      | none => rw [h3] at h; cases h
      | some s3 =>
        simp only [h3] at h
        by_cases hb1 : (takeDigits s3).1 = []
        · rw [if_pos hb1] at h; cases h
        · rw [if_neg hb1] at h
          cases h5 : (takeDigits s3).2 with
          | nil => rw [h5] at h; cases h
          | cons c s5 =>
            simp only [h5] at h
            by_cases hc : c = '%'
            · subst hc
              rw [if_pos rfl] at h
              have hpair : (takeDigits s1).1 = a ∧ (takeDigits s3).1 = b := by
                have := Option.some.inj h
                exact ⟨congrArg Prod.fst this, congrArg Prod.snd this⟩
              refine ⟨s5, ?_, hpair.1 ▸ ha1, hpair.2 ▸ hb1,
                hpair.1 ▸ (takeDigits_sound s1).2, hpair.2 ▸ (takeDigits_sound s3).2⟩
              have e1 : s = litA ++ s1 := matchLit_eq_append h1
              have e2 : s1 = (takeDigits s1).1 ++ (takeDigits s1).2 := (takeDigits_sound s1).1
              have e3 : (takeDigits s1).2 = litB ++ s3 := matchLit_eq_append h3
              have e4 : s3 = (takeDigits s3).1 ++ (takeDigits s3).2 := (takeDigits_sound s3).1
              rw [e1, e2, e3, e4, h5, hpair.1, hpair.2]
            · rw [if_neg hc] at h; cases h

theorem reSearch_sound {s : List Char} {a b : List Char}
    (h : reSearch s = some (a, b)) :
    ∃ p rest, s = p ++ (litA ++ (a ++ (litB ++ (b ++ '%' :: rest)))) ∧
      a ≠ [] ∧ b ≠ [] ∧ a.all Char.isDigit = true ∧ b.all Char.isDigit = true := by
  induction s with
  | nil => cases h
  | cons c t ih =>
    rw [reSearch] at h
    cases hm : matchAt (c :: t) with
    | some g =>
      simp only [hm] at h
      obtain rfl : g = (a, b) := Option.some.inj h
      obtain ⟨rest, hdec, h1, h2, h3, h4⟩ := matchAt_sound hm
      exact ⟨[], rest, by simpa using hdec, h1, h2, h3, h4⟩
    | none =>
      simp only [hm] at h
      obtain ⟨p, rest, hdec, h1, h2, h3, h4⟩ := ih h
      exact ⟨c :: p, rest, by simp [hdec], h1, h2, h3, h4⟩

theorem reSearch_complete_aux {m : List Char} (hm : (matchAt m).isSome = true)
    (p : List Char) : (reSearch (p ++ m)).isSome = true := by
  induction p with
  | nil =>
    cases m with
    | nil => simp [matchAt, litA, matchLit] at hm
    | cons c t =>
      rw [List.nil_append, reSearch]
      cases h : matchAt (c :: t) with
      | none => rw [h] at hm; cases hm
      | some g => simp
  | cons c p ih =>
    rw [List.cons_append, reSearch]
    cases h : matchAt (c :: (p ++ m)) with
    | none => simpa using ih
    | some g => simp

theorem reSearch_complete {s : List Char} (h : ContainsHumidityPattern s) :
    (reSearch s).isSome = true := by
  obtain ⟨p, a, b, rest, rfl, ha, hb, hda, hdb⟩ := h
  exact reSearch_complete_aux (by rw [matchAt_complete rest ha hb hda hdb]; rfl) p

/-! ### Attribute dictionaries -/

theorem find?_replaced (m : AttrMap) (k : String) (v : PyScalar)
    (h : m.any (fun p => p.1 = k) = true) :
    (m.map (fun p => if p.1 = k then (k, v) else p)).find? (fun p => p.1 = k) =
      some (k, v) := by
  induction m with
  | nil => simp at h
  | cons p t ih =>
    by_cases hp : p.1 = k
    · rw [List.map_cons, if_pos hp, List.find?_cons_of_pos _ (by simp)]
    · simp only [List.any_cons, decide_eq_true_eq, hp, false_or] at h
      rw [List.map_cons, if_neg hp, List.find?_cons_of_neg _ (by simp [hp])]
      exact ih h

theorem find?_none_of_any_false (m : AttrMap) (k : String)
    (h : m.any (fun p => p.1 = k) = false) :
    m.find? (fun p => p.1 = k) = none := by
  rw [List.find?_eq_none]
  intro x hx hpx
  have h2 : m.any (fun p => decide (p.1 = k)) = true :=
    List.any_eq_true.mpr ⟨x, hx, hpx⟩
  rw [h] at h2
  cases h2

theorem lookupAttr_dictInsert_self (m : AttrMap) (k : String) (v : PyScalar) :
    lookupAttr (dictInsert m k v) k = some v := by
  unfold dictInsert lookupAttr
  by_cases h : m.any (fun p => p.1 = k) = true
  · rw [if_pos h, find?_replaced m k v h]
    rfl
  · have hf : m.any (fun p => p.1 = k) = false := by
      revert h
      cases m.any (fun p => p.1 = k) <;> simp
    rw [if_neg h, List.find?_append, find?_none_of_any_false m k hf]
    simp

/-! ### The smooth-API per-sensor loop -/

theorem smoothLoop_refines (common : AttrMap) (read : String → Option SmoothResult)
    (labels : List String)
    (h : ∀ label r, read label = some r → pyEqStr r.sensor_label label = true →
      ∃ q, pyFloat r.average_humidity_percent = .ok q) :
    smoothLoop common read labels = .ok (smoothFetchSpec common read labels) := by
  induction labels with
  | nil => rfl
  | cons label rest ih =>
    have ihr := ih
    cases hr : read label with
    | none => simp only [smoothLoop, smoothFetchSpec, List.filterMap_cons, hr, ihr]
    | some r =>
      by_cases hm : pyEqStr r.sensor_label label = true
      · obtain ⟨q, hq⟩ := h label r hr hm
        simp only [smoothLoop, smoothFetchSpec, List.filterMap_cons, hr, hm, if_true,
          hq, ihr]
      · have hm2 : pyEqStr r.sensor_label label = false := by
          simpa using hm
        simp only [smoothLoop, smoothFetchSpec, List.filterMap_cons, hr, hm2,
          Bool.false_eq_true, if_false, ihr]

theorem smoothLoop_mem_attributes (common : AttrMap)
    (read : String → Option SmoothResult) :
    ∀ (labels : List String) (ms : List Measurement),
      smoothLoop common read labels = .ok ms →
      ∀ m ∈ ms, ∃ label, label ∈ labels ∧
        m.attributes = dictInsert common "sensor_id" (.str label) := by
  intro labels
  induction labels with
  | nil =>
    intro ms hms m hm
    obtain rfl : ([] : List Measurement) = ms := by
      simpa [smoothLoop] using hms
    cases hm
  | cons label rest ih =>
    intro ms hms m hm
    rw [smoothLoop] at hms
    cases hr : read label with
    | none =>
      rw [hr] at hms
      obtain ⟨l, hl, ha⟩ := ih ms hms m hm
      exact ⟨l, List.mem_cons_of_mem _ hl, ha⟩
    | some r =>
      rw [hr] at hms
      simp only at hms
      by_cases hm2 : pyEqStr r.sensor_label label = true
      · rw [if_pos hm2] at hms
        cases hq : pyFloat r.average_humidity_percent with
        | error e => rw [hq] at hms; cases hms
        | ok v =>
          rw [hq] at hms
          cases hrest : smoothLoop common read rest with
          | error e => rw [hrest] at hms; cases hms
          | ok ms2 =>
            rw [hrest] at hms
            have he := Except.ok.inj hms
            subst he
            rcases List.mem_cons.mp hm with rfl | hm2
            · exact ⟨label, List.mem_cons_self label rest, rfl⟩
            · obtain ⟨l, hl, ha⟩ := ih ms2 hrest m hm2
              exact ⟨l, List.mem_cons_of_mem _ hl, ha⟩
      · rw [if_neg hm2] at hms
        obtain ⟨l, hl, ha⟩ := ih ms hms m hm
        exact ⟨l, List.mem_cons_of_mem _ hl, ha⟩

/-! ### Formatter attributes -/

theorem formatAttr_scalarOk {k : String} {v : PyScalar} (h : scalarOk v = true) :
    ∃ e, formatAttr k v = some e ∧ e.1 = k ∧ pyValEqOtel v e.2 := by
  cases v with
  | str s => exact ⟨(k, .stringValue s), rfl, rfl, rfl⟩
  | int n => exact ⟨(k, .doubleValue n), rfl, rfl, rfl⟩
  | float q => exact ⟨(k, .doubleValue q), rfl, rfl, rfl⟩
  | bool b => exact ⟨(k, .doubleValue (if b then 1 else 0)), by cases b <;> rfl, rfl, rfl⟩
  | pynone => simp [scalarOk, isinstance_str, isinstance_int_float, isinstance_bool] at h

theorem otelAttributes_forall₂ (attrs : AttrMap)
    (h : ∀ kv ∈ attrs, scalarOk kv.2 = true) :
    List.Forall₂ (fun (kv : String × PyScalar) (e : String × OtelValue) =>
      e.1 = kv.1 ∧ pyValEqOtel kv.2 e.2) attrs (otelAttributes attrs) := by
  induction attrs with
  | nil => exact List.Forall₂.nil
  | cons kv t ih =>
    obtain ⟨e, he, he1, he2⟩ := formatAttr_scalarOk (k := kv.1)
      (h kv (List.mem_cons_self ..))
    rw [otelAttributes, List.filterMap_cons, he]
    exact List.Forall₂.cons ⟨he1, he2⟩ (ih fun x hx => h x (List.mem_cons_of_mem _ hx))

/-! ### The poll loop -/

theorem pollLoop_first_false (statuses : Nat → ApiStatus) :
    ∀ (d start fuel : Nat),
      (∀ j, j < d → (statuses (start + j)).smooth_humi_task_running = true) →
      (statuses (start + d)).smooth_humi_task_running = false →
      d < fuel →
      pollLoop statuses start fuel = .returns (statuses (start + d)).last_smooth_humi_result := by
  intro d
  induction d with
  | zero =>
    intro start fuel _ hd hfuel
    obtain ⟨f, rfl⟩ : ∃ f, fuel = f + 1 := ⟨fuel - 1, by omega⟩
    rw [pollLoop]
    simp only [Nat.add_zero] at hd
    rw [hd]
    simp
  | succ d ih =>
    intro start fuel hrun hd hfuel
    obtain ⟨f, rfl⟩ : ∃ f, fuel = f + 1 := ⟨fuel - 1, by omega⟩
    rw [pollLoop]
    have h0 : (statuses (start + 0)).smooth_humi_task_running = true :=
      hrun 0 (Nat.succ_pos d)
    rw [Nat.add_zero] at h0
    rw [h0]
    simp only [if_true]
    have := ih (start + 1) f
      (fun j hj => by
        have := hrun (j + 1) (by omega)
        simpa [Nat.add_assoc, Nat.add_comm 1 j] using this)
      (by have := hd; rw [show start + 1 + d = start + (d + 1) by omega]; exact this)
      (by omega)
    rw [this, show start + 1 + d = start + (d + 1) by omega]

theorem pollLoop_all_running (statuses : Nat → ApiStatus)
    (h : ∀ j, (statuses j).smooth_humi_task_running = true) :
    ∀ (fuel start : Nat), pollLoop statuses start fuel = .neverReturns := by
  intro fuel
  induction fuel with
  | zero => intro start; rfl
  | succ f ih =>
    intro start
    rw [pollLoop, h start]
    simpa using ih (start + 1)

/-! ## Claim theorems -/

/-- Claim C1.  The claim says a boolean-valued attribute is emitted as a
`boolValue` entry.  The code disagrees: Python's `bool` is a subclass of `int`,
so `isinstance(val, (int, float))` already captures booleans and the formatter
emits a `doubleValue` (`float(True) == 1.0`); the `boolValue` branch is dead
code.  This theorem evaluates the formatter at a boolean attribute and states
the double-kind entry it actually produces. -/
theorem c1_bool_attribute_emitted_as_double :
    otelAttributes [("flag", PyScalar.bool true)] =
      [("flag", OtelValue.doubleValue 1)] ∧
    ∀ (k : String) (b : Bool),
      formatAttr k (PyScalar.bool b) =
        some (k, OtelValue.doubleValue (if b then 1 else 0)) := by
  refine ⟨rfl, ?_⟩
  intro k b
  cases b <;> rfl

/-- Claim C2.  The claim says a completed result that echoes the requested
label but lacks `average_humidity_percent` yields zero measurements for that
sensor and the process completes normally.  The code disagrees:
`result.get('average_humidity_percent')` returns `None` and `float(None)`
raises a `TypeError` that no handler catches, so the fetch raises instead of
skipping the sensor. -/
theorem c2_missing_average_field_raises :
    fetch_from_smooth_api_device [] ["hum0"] c2read =
      .error "TypeError: float() argument must not be None" := by
  rfl

/-- Claim C3, counterexample.  The claim says every malformed body — including
a JSON body whose `enabled_sensors` entries lack a `label` field — yields an
empty sequence without raising.  At exactly such a body,
`{"enabled_sensors": [{}]}`, the comprehension `sensor['label']` raises a
`KeyError`, which is not a `RequestException` and escapes. -/
theorem c3_counterexample_missing_label_field_raises :
    get_available_sensors (.ok (.jobj [("enabled_sensors", .jarr [.jobj []])])) =
      .error "KeyError: label missing" := by
  rfl

/-- Claim C3, amended.  `get_available_sensors` returns an empty list without
raising on any network/HTTP/JSON-decode failure (all caught as
`RequestException`), on any falsy body, and on any body that has no
`enabled_sensors` member; but not on every malformed body (see the
counterexample). -/
theorem c3_discovery_soft_failure_paths_return_empty :
    get_available_sensors (.error ()) = .ok [] ∧
    (∀ data : JVal, jTruthy data = false →
      get_available_sensors (.ok data) = .ok []) ∧
    (∀ data : JVal, pyContains data "enabled_sensors" = .ok false →
      get_available_sensors (.ok data) = .ok []) := by
  refine ⟨rfl, ?_, ?_⟩
  · intro data h
    simp [get_available_sensors, h]
  · intro data h
    by_cases ht : jTruthy data = true
    · simp [get_available_sensors, ht, h]
    · simp [get_available_sensors, ht]

theorem c3_soft_failure_witness :
    get_available_sensors (.ok .jnull) = .ok [] ∧
    get_available_sensors (.ok (.jobj [("other", .jnull)])) = .ok [] :=
  ⟨c3_discovery_soft_failure_paths_return_empty.2.1 .jnull rfl,
   c3_discovery_soft_failure_paths_return_empty.2.2 (.jobj [("other", .jnull)]) rfl⟩

/-- Claim C4.  A body containing a substring matched by
`Humidity A: (\d+)% Humidity B: (\d+)%` makes the legacy fetcher emit exactly
two measurements, in order, valued at the two captured digit groups, with
sensor ids `Sensor A` and `Sensor B` merged onto the device's common
attributes; the example body yields 42.0 and 7.0; a body with no matching
substring yields `[]` without raising. -/
theorem c4_legacy_html_fetcher_behaviour :
    (∀ (common : AttrMap) (s : List Char), ContainsHumidityPattern s →
      ∃ a b : List Char, a ≠ [] ∧ b ≠ [] ∧ a.all Char.isDigit = true ∧
        b.all Char.isDigit = true ∧
        fetch_from_legacy_html_device common s =
          [ { value := (digitsToNat a : ℚ),
              attributes := dictInsert common "sensor_id" (.str "Sensor A") },
            { value := (digitsToNat b : ℚ),
              attributes := dictInsert common "sensor_id" (.str "Sensor B") } ]) ∧
    (∀ common : AttrMap,
      fetch_from_legacy_html_device common
          "... Humidity A: 42% Humidity B: 7% ...".toList =
        [ { value := 42,
            attributes := dictInsert common "sensor_id" (.str "Sensor A") },
          { value := 7,
            attributes := dictInsert common "sensor_id" (.str "Sensor B") } ]) ∧
    (∀ (common : AttrMap) (s : List Char), ¬ ContainsHumidityPattern s →
      fetch_from_legacy_html_device common s = []) := by
  refine ⟨?_, ?_, ?_⟩
  · intro common s hc
    have hs := reSearch_complete hc
    cases hg : reSearch s with
    | none => rw [hg] at hs; cases hs
    | some g =>
      obtain ⟨a, b⟩ := g
      obtain ⟨p, rest, hdec, h1, h2, h3, h4⟩ := reSearch_sound hg
      exact ⟨a, b, h1, h2, h3, h4, by simp [fetch_from_legacy_html_device, hg]⟩
  · intro common
    have h1 : reSearch "... Humidity A: 42% Humidity B: 7% ...".toList =
        some (['4', '2'], ['7']) := by decide
    have h2 : digitsToNat ['4', '2'] = 42 := by decide
    have h3 : digitsToNat ['7'] = 7 := by decide
    simp only [fetch_from_legacy_html_device, h1, h2, h3]
    norm_num
  · intro common s hnc
    cases hg : reSearch s with
    | none => simp [fetch_from_legacy_html_device, hg]
    | some g =>
      obtain ⟨a, b⟩ := g
      obtain ⟨p, rest, hdec, hh1, hh2, hh3, hh4⟩ := reSearch_sound hg
      exact absurd ⟨p, a, b, rest, hdec, hh1, hh2, hh3, hh4⟩ hnc

theorem c4_witness :
    (∃ a b : List Char, a ≠ [] ∧ b ≠ [] ∧ a.all Char.isDigit = true ∧
      b.all Char.isDigit = true ∧
      fetch_from_legacy_html_device []
          "zz Humidity A: 31% Humidity B: 8%!".toList =
        [ { value := (digitsToNat a : ℚ),
            attributes := dictInsert [] "sensor_id" (.str "Sensor A") },
          { value := (digitsToNat b : ℚ),
            attributes := dictInsert [] "sensor_id" (.str "Sensor B") } ]) ∧
    fetch_from_legacy_html_device [] "no humidity here".toList = [] := by
  constructor
  · exact c4_legacy_html_fetcher_behaviour.1 [] _
      ⟨"zz ".toList, ['3', '1'], ['8'], ['!'], by decide, by decide, by decide,
        by decide, by decide⟩
  · refine c4_legacy_html_fetcher_behaviour.2.2 [] _ (fun hc => ?_)
    have hs := reSearch_complete hc
    rw [show reSearch "no humidity here".toList = none from by decide] at hs
    cases hs

/-- Claim C5.  Whenever every present-and-matching read result carries a
numeric `average_humidity_percent` (the missing-field case is the separate C2
defect), the smooth-API fetcher equals the spec-side description: sensors whose
read is absent or echoes a different label are excluded, every remaining sensor
is still processed in discovery order, and each match contributes one
measurement valued at its `average_humidity_percent`. -/
theorem c5_smooth_fetcher_skips_and_continues :
    ∀ (common : AttrMap) (labels : List String)
      (read : String → Option SmoothResult),
      (∀ label r, read label = some r → pyEqStr r.sensor_label label = true →
        ∃ q, pyFloat r.average_humidity_percent = .ok q) →
      fetch_from_smooth_api_device common labels read =
        .ok (smoothFetchSpec common read labels) := by
  intro common labels read h
  cases labels with
  | nil => rfl
  | cons a t =>
    rw [fetch_from_smooth_api_device, if_neg (by simp)]
    exact smoothLoop_refines common read (a :: t) h

theorem c5_witness :
    fetch_from_smooth_api_device [("device_id", .str "d")]
        ["top", "bottom", "mis", "gone"] c5read =
      .ok (smoothFetchSpec [("device_id", .str "d")] c5read
        ["top", "bottom", "mis", "gone"]) ∧
    smoothFetchSpec [("device_id", .str "d")] c5read
        ["top", "bottom", "mis", "gone"] =
      [ { value := 55,
          attributes := [("device_id", .str "d"), ("sensor_id", .str "top")] },
        { value := 40,
          attributes := [("device_id", .str "d"), ("sensor_id", .str "bottom")] } ] := by
  constructor
  · refine c5_smooth_fetcher_skips_and_continues _ _ c5read ?_
    intro label r hr hm
    unfold c5read at hr
    by_cases h1 : label = "top"
    · rw [if_pos h1] at hr
      obtain rfl := Option.some.inj hr
      exact ⟨_, rfl⟩
    · rw [if_neg h1] at hr
      by_cases h2 : label = "bottom"
      · rw [if_pos h2] at hr
        obtain rfl := Option.some.inj hr
        exact ⟨_, rfl⟩
      · rw [if_neg h2] at hr
        by_cases h3 : label = "mis"
        · rw [if_pos h3] at hr
          obtain rfl := Option.some.inj hr
          subst h3
          exact absurd hm (by decide)
        · rw [if_neg h3] at hr
          cases hr
  · decide

/-- Claim C6.  The formatter returns an absent envelope exactly when its input
measurement list is empty, and on the empty-collection path the orchestrator
returns before any HTTP POST to the collector. -/
theorem c6_formatter_absent_iff_empty :
    (∀ (name unit : String) (ts : Nat) (ms : List Measurement),
      format_for_otel name unit ts ms = none ↔ ms = []) ∧
    (∀ (fetched : List (List Measurement)) (ts : Nat), fetched.flatten = [] →
      collect_and_send_metrics fetched ts = .nothingToSend) := by
  constructor
  · intro name unit ts ms
    cases ms with
    | nil => simp [format_for_otel]
    | cons m t => simp [format_for_otel]
  · intro fetched ts h
    simp [collect_and_send_metrics, h]

theorem c6_witness :
    format_for_otel "soil_moisture_percentage" "%" 0 [] = none ∧
    collect_and_send_metrics [[], []] 0 = .nothingToSend :=
  ⟨(c6_formatter_absent_iff_empty.1 "soil_moisture_percentage" "%" 0 []).mpr rfl,
   c6_formatter_absent_iff_empty.2 [[], []] 0 rfl⟩

/-- Claim C7.  Formatting a batch whose attribute values all have one of the
supported scalar shapes and then parsing the envelope back reproduces the
original (value, attribute-set) pairs in order: values are recovered exactly,
and each attribute entry key-for-key with its value equal (under Python `==`,
which identifies ints, floats and bools with their numeric value) to the typed
value emitted for it.  Order is preserved across the whole batch, hence within
each device's sensor sequence. -/
theorem c7_format_parse_round_trip :
    ∀ (name unit : String) (ts : Nat) (ms : List Measurement)
      (env : MetricsEnvelope),
      (∀ m ∈ ms, ∀ kv ∈ m.attributes, scalarOk kv.2 = true) →
      format_for_otel name unit ts ms = some env →
      List.Forall₂
        (fun (m : Measurement) (p : ℚ × List (String × OtelValue)) =>
          p.1 = m.value ∧
          List.Forall₂ (fun kv e => e.1 = kv.1 ∧ pyValEqOtel kv.2 e.2)
            m.attributes p.2)
        ms (parseEnvelope env) := by
  intro name unit ts ms env hok hfmt
  have henv : parseEnvelope env =
      ms.map (fun m => (m.value, otelAttributes m.attributes)) := by
    simp only [format_for_otel] at hfmt
    by_cases he : (ms.map (dataPointOf ts)).isEmpty = true
    · rw [if_pos he] at hfmt; cases hfmt
    · rw [if_neg he] at hfmt
      obtain rfl := (Option.some.inj hfmt).symm
      simp [parseEnvelope, dataPointOf, List.map_map, Function.comp]
  rw [henv, List.forall₂_map_right_iff, List.forall₂_same]
  intro m hm
  exact ⟨rfl, otelAttributes_forall₂ m.attributes (hok m hm)⟩

theorem c7_witness :
    format_for_otel "soil_moisture_percentage" "%" 5 ms0 = some env0 ∧
    List.Forall₂
      (fun (m : Measurement) (p : ℚ × List (String × OtelValue)) =>
        p.1 = m.value ∧
        List.Forall₂ (fun kv e => e.1 = kv.1 ∧ pyValEqOtel kv.2 e.2)
          m.attributes p.2)
      ms0 (parseEnvelope env0) :=
  ⟨rfl, c7_format_parse_round_trip "soil_moisture_percentage" "%" 5 ms0 env0
    (by decide) rfl⟩

/-- Claim C8.  After a 202-accepted trigger, the call sleep-polls and returns
the status object's last-result field from the first poll whose running flag is
false; and because the loop has no bound, a device whose polls all report the
flag true never lets the call return, however much fuel is granted. -/
theorem c8_unbounded_poll_loop :
    (∀ (statuses : Nat → ApiStatus) (d fuel : Nat),
      (∀ j, j < d → (statuses j).smooth_humi_task_running = true) →
      (statuses d).smooth_humi_task_running = false → d < fuel →
      request_smooth_reading 202 statuses fuel =
        .returns (statuses d).last_smooth_humi_result) ∧
    (∀ (statuses : Nat → ApiStatus) (fuel : Nat),
      (∀ j, (statuses j).smooth_humi_task_running = true) →
      request_smooth_reading 202 statuses fuel = .neverReturns) := by
  constructor
  · intro statuses d fuel hrun hd hfuel
    rw [request_smooth_reading, if_neg (by simp)]
    have h := pollLoop_first_false statuses d 0 fuel
      (fun j hj => by simpa using hrun j hj) (by simpa using hd) hfuel
    simpa using h
  · intro statuses fuel h
    rw [request_smooth_reading, if_neg (by simp)]
    exact pollLoop_all_running statuses h fuel 0

theorem c8_witness :
    request_smooth_reading 202 c8statuses 5 =
      .returns (some { sensor_label := .str "s", average_humidity_percent := .float 50 }) ∧
    request_smooth_reading 202
      (fun _ => { smooth_humi_task_running := true, last_smooth_humi_result := none })
      7 = .neverReturns := by
  constructor
  · exact c8_unbounded_poll_loop.1 c8statuses 2 5
      (fun j hj => by interval_cases j <;> rfl) rfl (by omega)
  · exact c8_unbounded_poll_loop.2 _ 7 (fun j => rfl)

/-- Claim C9.  The fetcher-supplied `sensor_id` overrides any identically named
common attribute: the merge `{**common, "sensor_id": sid}` always answers `sid`
for that key, every legacy measurement answers `Sensor A` or `Sensor B`, and
every smooth-API measurement answers one of the discovered labels. -/
theorem c9_fetcher_sensor_id_overrides_common :
    (∀ (common : AttrMap) (k : String) (v : PyScalar),
      lookupAttr (dictInsert common k v) k = some v) ∧
    (∀ (common : AttrMap) (body : List Char),
      ∀ m ∈ fetch_from_legacy_html_device common body,
        lookupAttr m.attributes "sensor_id" = some (.str "Sensor A") ∨
        lookupAttr m.attributes "sensor_id" = some (.str "Sensor B")) ∧
    (∀ (common : AttrMap) (labels : List String)
        (read : String → Option SmoothResult) (ms : List Measurement),
      fetch_from_smooth_api_device common labels read = .ok ms →
      ∀ m ∈ ms, ∃ label, label ∈ labels ∧
        lookupAttr m.attributes "sensor_id" = some (.str label)) := by
  refine ⟨lookupAttr_dictInsert_self, ?_, ?_⟩
  · intro common body m hm
    cases hg : reSearch body with
    | none => simp [fetch_from_legacy_html_device, hg] at hm
    | some g =>
      obtain ⟨a, b⟩ := g
      simp only [fetch_from_legacy_html_device, hg] at hm
      rcases List.mem_cons.mp hm with rfl | hm2
      · exact Or.inl (lookupAttr_dictInsert_self common "sensor_id" _)
      · rcases List.mem_cons.mp hm2 with rfl | hm3
        · exact Or.inr (lookupAttr_dictInsert_self common "sensor_id" _)
        · cases hm3
  · intro common labels read ms hms m hm
    cases labels with
    | nil =>
      obtain rfl : ([] : List Measurement) = ms := Except.ok.inj hms
      cases hm
    | cons a t =>
      have hloop : smoothLoop common read (a :: t) = .ok ms := by
        rw [fetch_from_smooth_api_device, if_neg (by simp)] at hms
        exact hms
      obtain ⟨label, hl, ha⟩ :=
        smoothLoop_mem_attributes common read (a :: t) ms hloop m hm
      refine ⟨label, hl, ?_⟩
      rw [ha]
      exact lookupAttr_dictInsert_self common "sensor_id" (.str label)

theorem c9_witness :
    lookupAttr (dictInsert [("sensor_id", PyScalar.str "configured")]
        "sensor_id" (.str "top")) "sensor_id" = some (.str "top") ∧
    (lookupAttr ([("sensor_id", PyScalar.str "Sensor A")] : AttrMap) "sensor_id" =
        some (.str "Sensor A") ∨
      lookupAttr ([("sensor_id", PyScalar.str "Sensor A")] : AttrMap) "sensor_id" =
        some (.str "Sensor B")) ∧
    (∃ label, label ∈ ["top"] ∧
      lookupAttr ([("sensor_id", PyScalar.str "top")] : AttrMap) "sensor_id" =
        some (.str label)) := by
  refine ⟨c9_fetcher_sensor_id_overrides_common.1 _ _ _, ?_, ?_⟩
  · exact c9_fetcher_sensor_id_overrides_common.2.1
      [("sensor_id", .str "configured")] "Humidity A: 1% Humidity B: 2%".toList
      { value := 1, attributes := [("sensor_id", .str "Sensor A")] } (by decide)
  · exact c9_fetcher_sensor_id_overrides_common.2.2
      [("sensor_id", .str "configured")] ["top"]
      (fun _ => some { sensor_label := .str "top", average_humidity_percent := .float 50 })
      [{ value := 50, attributes := [("sensor_id", .str "top")] }] rfl
      { value := 50, attributes := [("sensor_id", .str "top")] } (by decide)

/-- Claim C10.  For every device configuration and every body the legacy HTML
fetcher returns either no measurement or exactly two, never one and never more:
the two-group pattern matches as a whole or not at all. -/
theorem c10_legacy_output_length_zero_or_two :
    ∀ (common : AttrMap) (s : List Char),
      fetch_from_legacy_html_device common s = [] ∨
      (fetch_from_legacy_html_device common s).length = 2 := by
  intro common s
  cases hg : reSearch s with
  | none => exact Or.inl (by simp [fetch_from_legacy_html_device, hg])
  | some g =>
    obtain ⟨a, b⟩ := g
    exact Or.inr (by simp [fetch_from_legacy_html_device, hg])

end EspIot
